import Mathlib

/-!
A verification development for the `pr-reviewer` script
(`src/prreviewer.py`).  The program is a single-pass CLI tool: parse
options, validate token limits, optionally fetch PR metadata and the
changed-file list over HTTP, print in verbose/debug mode.  We embed it
shallowly: the network is an explicit environment (`Env`) mapping each
endpoint to its response, side effects (prints and HTTP GETs) are
collected into an explicit event trace, and Python exceptions become
`Except String` values carrying the exception message.

Python strings are modelled as Lean `String`; the byte level needed by
`base64`/UTF-8 is modelled as `List Nat` with every element `< 256`,
and code points as `List Nat` of Unicode scalar values.
-/

namespace PrReviewer

/-! ## Byte-level primitives: UTF-8 and base64

These model the Python library primitives used by `string_to_base64`
and `base64_to_string`: `str.encode('utf-8')`, `bytes.decode('utf-8')`
(strict UTF-8), `base64.b64encode` and `base64.b64decode` (standard
alphabet, strict decoding). -/

/-- UTF-8 encoding of a single Unicode scalar value (as in
`str.encode('utf-8')`). -/
def utf8EncodeChar (c : Nat) : List Nat :=
  if c < 128 then [c]
  else if c < 2048 then [192 + c / 64, 128 + c % 64]
  else if c < 65536 then [224 + c / 4096, 128 + c / 64 % 64, 128 + c % 64]
  else [240 + c / 262144, 128 + c / 4096 % 64, 128 + c / 64 % 64, 128 + c % 64]

/-- UTF-8 encoding of a sequence of code points. -/
def utf8Encode (cs : List Nat) : List Nat :=
  cs.flatMap utf8EncodeChar

/-- A byte in the range of UTF-8 continuation bytes. -/
def isCont (b : Nat) : Bool :=
  128 ≤ b && b < 192

/-- One step of strict UTF-8 decoding (as in `bytes.decode('utf-8')`):
given the lead byte `b0` and the remaining bytes, return the decoded
code point and how many continuation bytes were consumed, or `none` on
a malformed sequence (stray continuation byte, truncated sequence,
overlong encoding, surrogate, or code point beyond U+10FFFF). -/
def utf8DecodeStep (b0 : Nat) (rest : List Nat) : Option (Nat × Nat) :=
  if b0 < 128 then some (b0, 0)
  else if b0 < 194 then none
  else if b0 < 224 then
    match rest with
    | b1 :: _ =>
      if isCont b1 then some ((b0 - 192) * 64 + (b1 - 128), 1) else none
    | [] => none
  else if b0 < 240 then
    match rest with
    | b1 :: b2 :: _ =>
      if isCont b1 && isCont b2 then
        let c := (b0 - 224) * 4096 + (b1 - 128) * 64 + (b2 - 128)
        if c < 2048 then none
        else if 55296 ≤ c && c ≤ 57343 then none
        else some (c, 2)
      else none
    | _ => none
  else if b0 < 245 then
    match rest with
    | b1 :: b2 :: b3 :: _ =>
      if isCont b1 && isCont b2 && isCont b3 then
        let c := (b0 - 240) * 262144 + (b1 - 128) * 4096 +
                 (b2 - 128) * 64 + (b3 - 128)
        if c < 65536 then none
        else if 1114112 ≤ c then none
        else some (c, 3)
      else none
    | _ => none
  else none

/-- The decoding loop: decode one character per step; the fuel only
bounds the number of steps and never runs out when it starts at the
byte count. -/
def utf8DecodeGo : Nat → List Nat → Option (List Nat)
  | _, [] => some []
  | 0, _ :: _ => none
  | fuel + 1, b0 :: rest =>
    match utf8DecodeStep b0 rest with
    | none => none
    | some (c, k) => (utf8DecodeGo fuel (rest.drop k)).map (c :: ·)

/-- Strict UTF-8 decoding of a byte sequence back to code points. -/
def utf8Decode (l : List Nat) : Option (List Nat) :=
  utf8DecodeGo l.length l

/-- The base64 alphabet: sextet value to ASCII code. -/
def b64Char (n : Nat) : Nat :=
  if n < 26 then 65 + n
  else if n < 52 then 97 + (n - 26)
  else if n < 62 then 48 + (n - 52)
  else if n = 62 then 43
  else 47

/-- Inverse of the base64 alphabet: ASCII code to sextet value. -/
def b64Val (c : Nat) : Option Nat :=
  if 65 ≤ c ∧ c ≤ 90 then some (c - 65)
  else if 97 ≤ c ∧ c ≤ 122 then some (c - 97 + 26)
  else if 48 ≤ c ∧ c ≤ 57 then some (c - 48 + 52)
  else if c = 43 then some 62
  else if c = 47 then some 63
  else none

/-- Standard base64 encoding of a byte sequence with padding
(`base64.b64encode`); the result is a sequence of ASCII codes
(the byte value 61 is the padding character). -/
def b64encode : List Nat → List Nat
  | [] => []
  | [a] => [b64Char (a / 4), b64Char (a % 4 * 16), 61, 61]
  | [a, b] => [b64Char (a / 4), b64Char (a % 4 * 16 + b / 16),
               b64Char (b % 16 * 4), 61]
  | a :: b :: c :: rest =>
      b64Char (a / 4) :: b64Char (a % 4 * 16 + b / 16) ::
      b64Char (b % 16 * 4 + c / 64) :: b64Char (c % 64) :: b64encode rest

/-- Strict base64 decoding of a sequence of ASCII codes back to bytes
(`base64.b64decode`). -/
def b64decode : List Nat → Option (List Nat)
  | [] => some []
  | c0 :: c1 :: c2 :: c3 :: rest =>
    (match b64Val c0, b64Val c1 with
     | some v0, some v1 =>
       if c2 = 61 then
         if c3 = 61 ∧ rest = [] then some [v0 * 4 + v1 / 16] else none
       else
         match b64Val c2 with
         | some v2 =>
           if c3 = 61 then
             if rest = [] then some [v0 * 4 + v1 / 16, v1 % 16 * 16 + v2 / 4]
             else none
           else
             match b64Val c3 with
             | some v3 =>
               (b64decode rest).map
                 (fun bs => (v0 * 4 + v1 / 16) :: (v1 % 16 * 16 + v2 / 4) ::
                            (v2 % 4 * 64 + v3) :: bs)
             | none => none
         | none => none
     | _, _ => none)
  | _ => none

/-- Code points of a Lean string (each is a Unicode scalar value). -/
def strCodepoints (s : String) : List Nat :=
  s.data.map Char.toNat

/-- Rebuild a string from a list of code points. -/
def codepointsToString (cs : List Nat) : String :=
  String.mk (cs.map Char.ofNat)

/-- Source `string_to_base64`: UTF-8 encode the string and base64 it;
the result is the Python `bytes` value, as a list of ASCII codes. -/
def string_to_base64 (s : String) : List Nat :=
  b64encode (utf8Encode (strCodepoints s))

/-- Source `base64_to_string` on a byte argument: base64-decode and
UTF-8-decode; `none` models the exception paths of the Python code. -/
def base64_to_string_bytes (b : List Nat) : Option String :=
  ((b64decode b).bind utf8Decode).map codepointsToString

/-- Source `base64_to_string` applied to a JSON string value (Python
`b64decode` accepts `str` by reading its character codes). -/
def base64_to_string (b : String) : Option String :=
  base64_to_string_bytes (strCodepoints b)

/-! ## The program

The network is an explicit environment: each endpoint's response is a
field of `Env`.  Side effects are collected in a trace of `Event`s
(prints and HTTP GETs, in program order).  A Python exception is an
`Except.error` carrying the exception message; `main`'s termination is
an `Outcome`. -/

/-- One entry of the file-list response: the fields the program reads. -/
structure FileEntry where
  filename : String
  patch : String
  contents_url : String
deriving Repr, DecidableEq

/-- Response of a per-file contents endpoint: HTTP status and the
base64 `content` field of its JSON body. -/
structure ContentResp where
  status : Nat
  content : String
deriving Repr, DecidableEq

/-- The environment: responses of the three kinds of endpoints the
program may contact.  `prStatus`/`prTitle`/`prBody` describe the
pull-request metadata endpoint, `filesStatus`/`files` the file-list
endpoint, and `contentResp` the per-file contents endpoints, keyed by
URL. -/
structure Env where
  prStatus : Nat
  prTitle : String
  prBody : String
  filesStatus : Nat
  files : List FileEntry
  contentResp : String → ContentResp

/-- An observable side effect: a `print` call or an HTTP GET request. -/
inductive Event where
  | print (s : String)
  | httpGet (url : String)
deriving Repr, DecidableEq

/-- How a run of `main` terminates: falling off the end (process exit
status 0), an explicit `exit(code)` call, or an uncaught exception
(abnormal termination). -/
inductive Outcome where
  | finished
  | exited (code : Nat)
  | raised (msg : String)
deriving Repr, DecidableEq

/-- URL of the pull-request metadata resource (`get_pr_data`). -/
def prDataUrl (pr_number repo_ownr repo_name : String) : String :=
  "https://api.github.com/repos/" ++ repo_ownr ++ "/" ++ repo_name ++
    "/pulls/" ++ pr_number

/-- URL of the pull-request file-list resource (`get_pr_file_list`). -/
def fileListUrl (pr_number repo_ownr repo_name : String) : String :=
  "https://api.github.com/repos/" ++ repo_ownr ++ "/" ++ repo_name ++
    "/pulls/" ++ pr_number ++ "/files"

/-- Source `get_file_content`: one GET to `url`; raise on non-200,
otherwise base64-decode the JSON `content` field.  The `none` branch of
`base64_to_string` models the decode exceptions of the Python code. -/
def get_file_content (env : Env) (url : String) (gh_token : String) :
    List Event × Except String String :=
  let response := env.contentResp url
  ([Event.httpGet url],
   if response.status ≠ 200 then
     Except.error ("Error fetching file contents: " ++ toString response.status)
   else
     match base64_to_string response.content with
     | some s => Except.ok s
     | none => Except.error "base64 or unicode decode error")

/-- The `for file in response.json()` loop of `get_pr_file_list`:
append one `(filename, patch, content)` tuple per entry, propagating
the first exception raised by `get_file_content` and stopping there. -/
def fileLoop (env : Env) (gh_token : String) :
    List FileEntry → List Event × Except String (List (String × String × String))
  | [] => ([], Except.ok [])
  | f :: fs =>
    match get_file_content env f.contents_url gh_token with
    | (evs, Except.error e) => (evs, Except.error e)
    | (evs, Except.ok c) =>
      match fileLoop env gh_token fs with
      | (evs2, Except.error e) => (evs ++ evs2, Except.error e)
      | (evs2, Except.ok rest) =>
        (evs ++ evs2, Except.ok ((f.filename, f.patch, c) :: rest))

/-- Source `get_pr_file_list`: one GET to the file-list resource; raise
on non-200, otherwise run the per-file loop. -/
def get_pr_file_list (env : Env) (pr_number repo_ownr repo_name gh_token : String) :
    List Event × Except String (List (String × String × String)) :=
  let url := fileListUrl pr_number repo_ownr repo_name
  if env.filesStatus ≠ 200 then
    ([Event.httpGet url],
     Except.error ("Error fetching pull request: " ++ toString env.filesStatus))
  else
    match fileLoop env gh_token env.files with
    | (evs, res) => (Event.httpGet url :: evs, res)

/-- Source `get_pr_data`: one GET to the pull-request resource; raise
on non-200, otherwise return the response, modelled by the (title,
body) pair that `main` extracts from its JSON body. -/
def get_pr_data (env : Env) (pr_number repo_ownr repo_name gh_token : String) :
    List Event × Except String (String × String) :=
  let url := prDataUrl pr_number repo_ownr repo_name
  ([Event.httpGet url],
   if env.prStatus ≠ 200 then
     Except.error ("Error fetching pull request: " ++ toString env.prStatus)
   else Except.ok (env.prTitle, env.prBody))

/-- Source `printout`: print `fstring` iff `mode | DEBUG`.  The
module-level mutable `DEBUG` global is passed explicitly. -/
def printout (DEBUG : Bool) (fstring : String) (mode : Bool) : List Event :=
  if mode || DEBUG then [Event.print fstring] else []

/-- The banner string built by `print_script_signature`: the header
line followed by a line of `=` of the header's visible length. -/
def signatureString (pr_number repo_ownr repo_name : String) : String :=
  let signature := "\nRunning reviews on PR #" ++ pr_number ++ " in " ++
    repo_ownr ++ "/" ++ repo_name ++ "...\n"
  let len_signature := signature.length - 2
  let signature := signature ++ String.mk (List.replicate len_signature '=')
  signature ++ "\n"

/-- Source `print_script_signature`. -/
def print_script_signature (DEBUG : Bool)
    (pr_number repo_ownr repo_name : String) (verbose : Bool) : List Event :=
  printout DEBUG (signatureString pr_number repo_ownr repo_name) verbose

/-- Python's `str` of a boolean, as used by the debug dump. -/
def pyBoolStr (b : Bool) : String :=
  if b then "True" else "False"

/-- The CLI options of `main`, with the source's default values. -/
structure Config where
  pr_number : Int
  repo_ownr : String
  repo_name : String
  gh_token : String
  review_title : Bool := true
  review_body : Bool := true
  review_diffs : Bool := true
  debug : Bool := false
  verbose : Bool := false
  max_files : Int := 30
  max_tokens : Int := 4096
  max_input_tokens : Int := 4096
  max_input_tokens_pf : Int := 4096

/-- The `if debug:` block of `main`: eleven unconditional prints of the
call parameters. -/
def programCallDump (cfg : Config) : List Event :=
  [Event.print "PROGRAM CALL",
   Event.print ("\tpr_number: " ++ toString cfg.pr_number),
   Event.print ("\trepo_ownr: " ++ cfg.repo_ownr),
   Event.print ("\trepo_name: " ++ cfg.repo_name),
   Event.print ("\tgh_token:  " ++ cfg.gh_token),
   Event.print ("\treview_title: " ++ pyBoolStr cfg.review_title),
   Event.print ("\treview_body: " ++ pyBoolStr cfg.review_body),
   Event.print ("\treview_diffs: " ++ pyBoolStr cfg.review_diffs),
   Event.print ("\tverbose: " ++ pyBoolStr cfg.verbose),
   Event.print ("\tdebug: " ++ pyBoolStr cfg.debug),
   Event.print "\n"]

/-- The title/body review block of `main` (lines 179-187): the prints
emitted after a successful metadata fetch. -/
def titleBodyEvents (DEBUG : Bool) (cfg : Config) (pr_title pr_body : String) :
    List Event :=
  (if cfg.review_title != false then
     printout DEBUG "Reviewing the title:" cfg.verbose ++
     printout DEBUG ("\t" ++ pr_title) cfg.verbose
   else []) ++
  (if cfg.review_body != false then
     printout DEBUG "Reviewing the body:" cfg.verbose ++
     printout DEBUG ("\t" ++ pr_body) cfg.verbose
   else [])

/-- The diff review block of `main` (lines 189-197): print the stage
banner, fetch the file list, then run the empty per-file loop. -/
def diffStage (env : Env) (cfg : Config) (DEBUG : Bool) : List Event × Outcome :=
  if cfg.review_diffs != false then
    let evs := printout DEBUG "Reviewing the files:" cfg.verbose
    match get_pr_file_list env (toString cfg.pr_number) cfg.repo_ownr
        cfg.repo_name cfg.gh_token with
    | (evsB, Except.error e) => (evs ++ evsB, Outcome.raised e)
    | (evsB, Except.ok _changed_files) => (evs ++ evsB, Outcome.finished)
  else ([], Outcome.finished)

/-- Source `main`: copy `debug` into `DEBUG`, print the banner and the
debug dump, validate the token limits (error exit / warning), then run
the title/body stage and the diff stage. -/
def main (env : Env) (cfg : Config) : List Event × Outcome :=
  let DEBUG := cfg.debug
  let evs0 := print_script_signature DEBUG (toString cfg.pr_number)
    cfg.repo_ownr cfg.repo_name cfg.verbose
  let evs1 := evs0 ++ (if cfg.debug then programCallDump cfg else [])
  if cfg.max_input_tokens > cfg.max_tokens then
    (evs1 ++ [Event.print "!!!ERROR: `max_input_tokens > max_tokens`\n"],
     Outcome.exited 1)
  else
    let evs2 := evs1 ++
      (if cfg.max_input_tokens = cfg.max_tokens then
         [Event.print "!!!WARN: `max_input_tokens = max_tokens` (not recommended)\n"]
       else [])
    if cfg.review_title || cfg.review_body then
      match get_pr_data env (toString cfg.pr_number) cfg.repo_ownr
          cfg.repo_name cfg.gh_token with
      | (evs3, Except.error e) => (evs2 ++ evs3, Outcome.raised e)
      | (evs3, Except.ok (pr_title, pr_body)) =>
        let evs4 := evs2 ++ evs3 ++ titleBodyEvents DEBUG cfg pr_title pr_body
        match diffStage env cfg DEBUG with
        | (evs5, out) => (evs4 ++ evs5, out)
    else
      match diffStage env cfg DEBUG with
      | (evs5, out) => (evs2 ++ evs5, out)

/-! ## Concrete fixtures used to instantiate the theorems -/

/-- A concrete environment: healthy endpoints, one changed file whose
content endpoint serves the base64 encoding of "print(1)". -/
def envW : Env :=
  { prStatus := 200,
    prTitle := "Fix bug",
    prBody := "Closes #1",
    filesStatus := 200,
    files := [{ filename := "a.py", patch := "@@ ...", contents_url := "u" }],
    contentResp := fun _ => { status := 200, content := "cHJpbnQoMSk=" } }

/-- A concrete configuration with the source's default options plus
verbose output. -/
def cfgW : Config :=
  { pr_number := 1,
    repo_ownr := "o",
    repo_name := "r",
    gh_token := "t",
    verbose := true }

/-- A two-entry environment whose content endpoints all return 404. -/
def envW2 : Env :=
  { envW with
    files := [{ filename := "a.py", patch := "@@ ...", contents_url := "u" },
              { filename := "b.py", patch := "@@ +", contents_url := "v" }],
    contentResp := fun _ => { status := 404, content := "" } }

/-! ## Lemmas: base64 and UTF-8 round trips -/

theorem b64Val_b64Char {n : Nat} (h : n < 64) : b64Val (b64Char n) = some n := by
  interval_cases n <;> rfl

theorem b64Char_ne_pad {n : Nat} (h : n < 64) : b64Char n ≠ 61 := by
  interval_cases n <;> decide

theorem b64decode_b64encode (bs : List Nat) (h : ∀ x ∈ bs, x < 256) :
    b64decode (b64encode bs) = some bs := by
  induction bs using b64encode.induct with
  | case1 => rfl
  | case2 a =>
    have ha : a < 256 := h a (by simp)
    simp only [b64encode, b64decode]
    rw [b64Val_b64Char (by omega), b64Val_b64Char (by omega)]
    simp only [if_pos rfl, and_self, reduceIte]
    have e : a / 4 * 4 + a % 4 * 16 / 16 = a := by omega
    rw [e]
  | case3 a b =>
    have ha : a < 256 := h a (by simp)
    have hb : b < 256 := h b (by simp)
    simp only [b64encode, b64decode]
    rw [b64Val_b64Char (by omega), b64Val_b64Char (by omega),
      b64Val_b64Char (by omega)]
    simp only []
    rw [if_neg (b64Char_ne_pad (by omega))]
    simp only [reduceIte]
    have e1 : a / 4 * 4 + (a % 4 * 16 + b / 16) / 16 = a := by omega
    have e2 : (a % 4 * 16 + b / 16) % 16 * 16 + b % 16 * 4 / 4 = b := by omega
    rw [e1, e2]
  | case4 a b c rest ih =>
    have ha : a < 256 := h a (by simp)
    have hb : b < 256 := h b (by simp)
    have hc : c < 256 := h c (by simp)
    have hrest : ∀ x ∈ rest, x < 256 := fun x hx => h x (by simp [hx])
    simp only [b64encode, b64decode]
    rw [b64Val_b64Char (by omega), b64Val_b64Char (by omega),
      b64Val_b64Char (by omega), b64Val_b64Char (by omega)]
    simp only []
    rw [if_neg (b64Char_ne_pad (by omega)), if_neg (b64Char_ne_pad (by omega))]
    rw [ih hrest]
    simp only [Option.map_some']
    have e1 : a / 4 * 4 + (a % 4 * 16 + b / 16) / 16 = a := by omega
    have e2 : (a % 4 * 16 + b / 16) % 16 * 16 + (b % 16 * 4 + c / 64) / 4 = b := by
      omega
    have e3 : (b % 16 * 4 + c / 64) % 4 * 64 + c % 64 = c := by omega
    rw [e1, e2, e3]

theorem utf8EncodeChar_lt_256 {c : Nat} (h : c < 1114112) :
    ∀ b ∈ utf8EncodeChar c, b < 256 := by
  intro b hb
  unfold utf8EncodeChar at hb
  split_ifs at hb <;>
    simp only [List.mem_cons, List.mem_singleton, List.not_mem_nil, or_false] at hb <;>
    omega

theorem utf8DecodeGo_nil (fuel : Nat) : utf8DecodeGo fuel [] = some [] := by
  cases fuel <;> rfl

theorem utf8DecodeGo_congr (f1 : Nat) : ∀ (f2 : Nat) (l : List Nat),
    l.length ≤ f1 → l.length ≤ f2 → utf8DecodeGo f1 l = utf8DecodeGo f2 l := by
  induction f1 with
  | zero =>
    intro f2 l h1 h2
    rcases l with _ | ⟨b, l⟩
    · rw [utf8DecodeGo_nil, utf8DecodeGo_nil]
    · simp at h1
  | succ f1 ih =>
    intro f2 l h1 h2
    rcases l with _ | ⟨b0, rest⟩
    · rw [utf8DecodeGo_nil, utf8DecodeGo_nil]
    · rcases f2 with _ | f2
      · simp at h2
      · rw [utf8DecodeGo, utf8DecodeGo]
        cases hstep : utf8DecodeStep b0 rest with
        | none => rfl
        | some ck =>
          rcases ck with ⟨c, k⟩
          simp only []
          have hd := List.length_drop k rest
          have hl1 : (rest.drop k).length ≤ f1 := by
            simp only [List.length_cons] at h1
            omega
          have hl2 : (rest.drop k).length ≤ f2 := by
            simp only [List.length_cons] at h2
            omega
          rw [ih f2 (rest.drop k) hl1 hl2]

theorem utf8Decode_encodeChar {c : Nat}
    (h : c < 55296 ∨ (57343 < c ∧ c < 1114112)) (bs : List Nat) :
    utf8Decode (utf8EncodeChar c ++ bs) = (utf8Decode bs).map (c :: ·) := by
  unfold utf8EncodeChar
  split_ifs with h1 h2 h3
  · simp only [List.cons_append, List.nil_append]
    unfold utf8Decode
    simp only [List.length_cons]
    rw [utf8DecodeGo]
    have hs : utf8DecodeStep c bs = some (c, 0) := by
      unfold utf8DecodeStep
      rw [if_pos h1]
    rw [hs]
    simp only [List.drop_zero]
  · simp only [List.cons_append, List.nil_append]
    unfold utf8Decode
    simp only [List.length_cons]
    rw [utf8DecodeGo]
    have hs : utf8DecodeStep (192 + c / 64) ((128 + c % 64) :: bs) =
        some (c, 1) := by
      unfold utf8DecodeStep
      rw [if_neg (by omega), if_neg (by omega), if_pos (by omega)]
      simp only []
      rw [if_pos (by simp only [isCont, Bool.and_eq_true, decide_eq_true_eq]; omega)]
      have e : (192 + c / 64 - 192) * 64 + (128 + c % 64 - 128) = c := by omega
      rw [e]
    rw [hs]
    simp only [List.drop_succ_cons, List.drop_zero]
    rw [utf8DecodeGo_congr (bs.length + 1) bs.length bs (by omega) (Nat.le_refl _)]
  · simp only [List.cons_append, List.nil_append]
    unfold utf8Decode
    simp only [List.length_cons]
    rw [utf8DecodeGo]
    have hs : utf8DecodeStep (224 + c / 4096)
        ((128 + c / 64 % 64) :: (128 + c % 64) :: bs) = some (c, 2) := by
      unfold utf8DecodeStep
      rw [if_neg (by omega), if_neg (by omega), if_neg (by omega), if_pos (by omega)]
      simp only []
      rw [if_pos (by simp only [isCont, Bool.and_eq_true, decide_eq_true_eq]; omega)]
      have e : (224 + c / 4096 - 224) * 4096 + (128 + c / 64 % 64 - 128) * 64 +
          (128 + c % 64 - 128) = c := by omega
      rw [e]
      rw [if_neg (by omega)]
      rw [if_neg (by simp only [Bool.and_eq_true, decide_eq_true_eq]; omega)]
    rw [hs]
    simp only [List.drop_succ_cons, List.drop_zero]
    rw [utf8DecodeGo_congr (bs.length + 1 + 1) bs.length bs (by omega) (Nat.le_refl _)]
  · simp only [List.cons_append, List.nil_append]
    unfold utf8Decode
    simp only [List.length_cons]
    rw [utf8DecodeGo]
    have hs : utf8DecodeStep (240 + c / 262144)
        ((128 + c / 4096 % 64) :: (128 + c / 64 % 64) :: (128 + c % 64) :: bs) =
        some (c, 3) := by
      unfold utf8DecodeStep
      rw [if_neg (by omega), if_neg (by omega), if_neg (by omega), if_neg (by omega),
        if_pos (by omega)]
      simp only []
      rw [if_pos (by simp only [isCont, Bool.and_eq_true, decide_eq_true_eq]; omega)]
      have e : (240 + c / 262144 - 240) * 262144 + (128 + c / 4096 % 64 - 128) * 4096 +
          (128 + c / 64 % 64 - 128) * 64 + (128 + c % 64 - 128) = c := by omega
      rw [e]
      rw [if_neg (by omega), if_neg (by omega)]
    rw [hs]
    simp only [List.drop_succ_cons, List.drop_zero]
    rw [utf8DecodeGo_congr (bs.length + 1 + 1 + 1) bs.length bs (by omega)
      (Nat.le_refl _)]

theorem utf8Decode_utf8Encode (cs : List Nat)
    (h : ∀ c ∈ cs, c < 55296 ∨ (57343 < c ∧ c < 1114112)) :
    utf8Decode (utf8Encode cs) = some cs := by
  induction cs with
  | nil => rfl
  | cons c cs ih =>
    have hc := h c (by simp)
    have hrest : ∀ x ∈ cs, x < 55296 ∨ (57343 < x ∧ x < 1114112) :=
      fun x hx => h x (by simp [hx])
    simp only [utf8Encode, List.flatMap_cons] at ih ⊢
    rw [utf8Decode_encodeChar hc, ih hrest]
    rfl

theorem utf8Encode_lt_256 (cs : List Nat) (h : ∀ c ∈ cs, c < 1114112) :
    ∀ b ∈ utf8Encode cs, b < 256 := by
  intro b hb
  simp only [utf8Encode, List.mem_flatMap] at hb
  obtain ⟨c, hc, hbc⟩ := hb
  exact utf8EncodeChar_lt_256 (h c hc) b hbc

theorem strCodepoints_valid (s : String) :
    ∀ c ∈ strCodepoints s, c < 55296 ∨ (57343 < c ∧ c < 1114112) := by
  intro c hc
  simp only [strCodepoints, List.mem_map] at hc
  obtain ⟨ch, _, rfl⟩ := hc
  exact ch.valid

theorem strCodepoints_lt (s : String) : ∀ c ∈ strCodepoints s, c < 1114112 := by
  intro c hc
  have := strCodepoints_valid s c hc
  omega

theorem codepointsToString_strCodepoints (s : String) :
    codepointsToString (strCodepoints s) = s := by
  simp only [codepointsToString, strCodepoints, List.map_map]
  have h1 : List.map (Char.ofNat ∘ Char.toNat) s.data = List.map id s.data :=
    List.map_congr_left (fun a _ => Char.ofNat_toNat a)
  rw [h1, List.map_id]

/-- C9: decoding the base64 encoding of any string returns the string
unchanged (round trip of the encode/decode pair used on file
contents). -/
theorem base64_roundtrip (s : String) :
    base64_to_string_bytes (string_to_base64 s) = some s := by
  unfold base64_to_string_bytes string_to_base64
  rw [b64decode_b64encode _ (utf8Encode_lt_256 _ (strCodepoints_lt s))]
  simp only [Option.some_bind]
  rw [utf8Decode_utf8Encode _ (strCodepoints_valid s)]
  simp only [Option.map_some']
  rw [codepointsToString_strCodepoints]

/-! ## Trace lemmas for the program -/

theorem printout_no_httpGet (D : Bool) (s : String) (m : Bool) (url : String) :
    Event.httpGet url ∉ printout D s m := by
  unfold printout
  split_ifs <;> simp

theorem print_script_signature_no_httpGet (D : Bool) (p o r : String) (v : Bool)
    (url : String) : Event.httpGet url ∉ print_script_signature D p o r v :=
  printout_no_httpGet D (signatureString p o r) v url

theorem programCallDump_no_httpGet (cfg : Config) (url : String) :
    Event.httpGet url ∉ programCallDump cfg := by
  simp [programCallDump]

theorem get_file_content_fst (env : Env) (url gh_token : String) :
    (get_file_content env url gh_token).1 = [Event.httpGet url] := rfl

theorem fileLoop_events (env : Env) (t : String) (fs : List FileEntry) :
    ∀ e ∈ (fileLoop env t fs).1, ∃ f ∈ fs, e = Event.httpGet f.contents_url := by
  induction fs with
  | nil => simp [fileLoop]
  | cons f fs ih =>
    intro e he
    unfold fileLoop at he
    rcases hgc : get_file_content env f.contents_url t with ⟨evs, res⟩
    have hevs : evs = [Event.httpGet f.contents_url] := by
      have h1 := get_file_content_fst env f.contents_url t
      rw [hgc] at h1
      exact h1
    subst hevs
    rw [hgc] at he
    cases res with
    | error err =>
      simp only [List.mem_singleton] at he
      exact ⟨f, by simp, he⟩
    | ok c =>
      rcases hfl : fileLoop env t fs with ⟨evs2, res2⟩
      rw [hfl] at he
      have hsub : ∀ e ∈ evs2, ∃ g ∈ fs, e = Event.httpGet g.contents_url := by
        intro x hx
        have := ih x
        rw [hfl] at this
        exact this hx
      cases res2 with
      | error err =>
        simp only [] at he
        rcases List.mem_append.mp he with h1 | h1
        · simp only [List.mem_singleton] at h1
          exact ⟨f, by simp, h1⟩
        · obtain ⟨g, hg, hge⟩ := hsub e h1
          exact ⟨g, by simp [hg], hge⟩
      | ok rest =>
        simp only [] at he
        rcases List.mem_append.mp he with h1 | h1
        · simp only [List.mem_singleton] at h1
          exact ⟨f, by simp, h1⟩
        · obtain ⟨g, hg, hge⟩ := hsub e h1
          exact ⟨g, by simp [hg], hge⟩

theorem get_pr_file_list_events (env : Env) (p o r t : String) :
    ∀ e ∈ (get_pr_file_list env p o r t).1,
      e = Event.httpGet (fileListUrl p o r) ∨
      ∃ f ∈ env.files, e = Event.httpGet f.contents_url := by
  intro e he
  unfold get_pr_file_list at he
  split_ifs at he with hs
  · simp only [List.mem_singleton] at he
    exact Or.inl he
  · rcases hfl : fileLoop env t env.files with ⟨evs, res⟩
    rw [hfl] at he
    simp only [List.mem_cons] at he
    rcases he with he | he
    · exact Or.inl he
    · have := fileLoop_events env t env.files e
      rw [hfl] at this
      exact Or.inr (this he)

theorem get_pr_data_fst (env : Env) (p o r t : String) :
    (get_pr_data env p o r t).1 = [Event.httpGet (prDataUrl p o r)] := rfl

theorem get_pr_data_ok (env : Env) (p o r t : String) (h : env.prStatus = 200) :
    get_pr_data env p o r t =
      ([Event.httpGet (prDataUrl p o r)], Except.ok (env.prTitle, env.prBody)) := by
  simp [get_pr_data, h]

theorem titleBodyEvents_no_httpGet (D : Bool) (cfg : Config) (tl bd : String)
    (url : String) : Event.httpGet url ∉ titleBodyEvents D cfg tl bd := by
  unfold titleBodyEvents
  intro hmem
  rcases List.mem_append.mp hmem with h1 | h1 <;>
    [skip; skip] <;>
    (split_ifs at h1 <;>
      first
        | (rcases List.mem_append.mp h1 with h2 | h2 <;>
            exact printout_no_httpGet _ _ _ _ h2)
        | simp at h1)

theorem diffStage_events (env : Env) (cfg : Config) (D : Bool) :
    ∀ e ∈ (diffStage env cfg D).1,
      (∃ s, e = Event.print s) ∨
      e = Event.httpGet
        (fileListUrl (toString cfg.pr_number) cfg.repo_ownr cfg.repo_name) ∨
      ∃ f ∈ env.files, e = Event.httpGet f.contents_url := by
  intro e he
  unfold diffStage at he
  split_ifs at he with hd
  · rcases hfl : get_pr_file_list env (toString cfg.pr_number) cfg.repo_ownr
        cfg.repo_name cfg.gh_token with ⟨evs, res⟩
    rw [hfl] at he
    have hsub : ∀ x ∈ evs,
        x = Event.httpGet (fileListUrl (toString cfg.pr_number) cfg.repo_ownr
          cfg.repo_name) ∨ ∃ f ∈ env.files, x = Event.httpGet f.contents_url := by
      intro x hx
      have := get_pr_file_list_events env (toString cfg.pr_number) cfg.repo_ownr
        cfg.repo_name cfg.gh_token x
      rw [hfl] at this
      exact this hx
    cases res with
    | error err =>
      simp only [] at he
      rcases List.mem_append.mp he with h1 | h1
      · rcases (by unfold printout at h1; split_ifs at h1 <;> simp_all :
          e = Event.print "Reviewing the files:") with rfl
        exact Or.inl ⟨_, rfl⟩
      · rcases hsub e h1 with h2 | h2
        · exact Or.inr (Or.inl h2)
        · exact Or.inr (Or.inr h2)
    | ok l =>
      simp only [] at he
      rcases List.mem_append.mp he with h1 | h1
      · rcases (by unfold printout at h1; split_ifs at h1 <;> simp_all :
          e = Event.print "Reviewing the files:") with rfl
        exact Or.inl ⟨_, rfl⟩
      · rcases hsub e h1 with h2 | h2
        · exact Or.inr (Or.inl h2)
        · exact Or.inr (Or.inr h2)
  · simp at he

theorem get_file_content_ok (env : Env) (url t d : String)
    (h200 : (env.contentResp url).status = 200)
    (hdec : base64_to_string (env.contentResp url).content = some d) :
    get_file_content env url t = ([Event.httpGet url], Except.ok d) := by
  simp [get_file_content, h200, hdec]

theorem get_file_content_err (env : Env) (url t : String)
    (h : (env.contentResp url).status ≠ 200) :
    get_file_content env url t =
      ([Event.httpGet url],
       Except.error ("Error fetching file contents: " ++
         toString (env.contentResp url).status)) := by
  simp [get_file_content, h]

theorem fileLoop_ok (env : Env) (t : String) (fs : List FileEntry)
    (dec : FileEntry → String)
    (hc : ∀ f ∈ fs, (env.contentResp f.contents_url).status = 200 ∧
      base64_to_string (env.contentResp f.contents_url).content = some (dec f)) :
    fileLoop env t fs =
      (fs.map (fun f => Event.httpGet f.contents_url),
       Except.ok (fs.map (fun f => (f.filename, f.patch, dec f)))) := by
  induction fs with
  | nil => rfl
  | cons f fs ih =>
    obtain ⟨h200, hdec⟩ := hc f (by simp)
    have hrest := fun g hg => hc g (List.mem_cons_of_mem _ hg)
    rw [fileLoop, get_file_content_ok env f.contents_url t (dec f) h200 hdec,
      ih hrest]
    rfl

/-! ## Claim theorems -/

/-- C1: for every configuration with max_input_tokens > max_tokens,
main prints an error message containing "max_input_tokens > max_tokens"
and exits with status 1, and no HTTP request (metadata, file-list or
content fetch) is ever issued in such a run. -/
theorem limits_error_exits_before_http (env : Env) (cfg : Config)
    (h : cfg.max_input_tokens > cfg.max_tokens) :
    (main env cfg).2 = Outcome.exited 1 ∧
    Event.print ("!!!ERROR: `" ++ "max_input_tokens > max_tokens" ++ "`\n") ∈
      (main env cfg).1 ∧
    ∀ url, Event.httpGet url ∉ (main env cfg).1 := by
  have hmsg : ("!!!ERROR: `" ++ "max_input_tokens > max_tokens" ++ "`\n" : String) =
      "!!!ERROR: `max_input_tokens > max_tokens`\n" := rfl
  simp only [main]
  rw [if_pos h]
  refine ⟨rfl, ?_, ?_⟩
  · rw [hmsg]
    exact List.mem_append_right _ (by simp)
  · intro url hmem
    rcases List.mem_append.mp hmem with h1 | h1
    · rcases List.mem_append.mp h1 with h2 | h2
      · exact print_script_signature_no_httpGet _ _ _ _ _ _ h2
      · split at h2
        · exact programCallDump_no_httpGet _ _ h2
        · simp at h2
    · simp at h1

/-- Witness for C1: a configuration with max_input_tokens 5000 >
max_tokens 4096 exits with status 1, prints the error, and issues no
HTTP request. -/
theorem limits_error_exits_before_http_witness :
    ({ cfgW with max_input_tokens := 5000 } : Config).max_input_tokens >
      ({ cfgW with max_input_tokens := 5000 } : Config).max_tokens ∧
    ((main envW { cfgW with max_input_tokens := 5000 }).2 = Outcome.exited 1 ∧
     Event.print ("!!!ERROR: `" ++ "max_input_tokens > max_tokens" ++ "`\n") ∈
       (main envW { cfgW with max_input_tokens := 5000 }).1 ∧
     ∀ url, Event.httpGet url ∉
       (main envW { cfgW with max_input_tokens := 5000 }).1) :=
  ⟨by decide, limits_error_exits_before_http envW _ (by decide)⟩

/-- C2: when the file list returns 200 and every entry's content
endpoint returns 200 with decodable base64 content, get_pr_file_list
returns exactly one (filename, patch, decoded content) tuple per
response entry, in response order, fetching each content from that
entry's contents_url. -/
theorem file_list_maps_entries (env : Env) (p o r t : String)
    (dec : FileEntry → String)
    (h200 : env.filesStatus = 200)
    (hc : ∀ f ∈ env.files, (env.contentResp f.contents_url).status = 200 ∧
      base64_to_string (env.contentResp f.contents_url).content = some (dec f)) :
    get_pr_file_list env p o r t =
      (Event.httpGet (fileListUrl p o r) ::
         env.files.map (fun f => Event.httpGet f.contents_url),
       Except.ok (env.files.map (fun f => (f.filename, f.patch, dec f)))) := by
  unfold get_pr_file_list
  rw [if_neg (by simp [h200]), fileLoop_ok env t env.files dec hc]

/-- Witness for C2: the single-entry environment of the spec example
yields exactly [("a.py", "@@ ...", "print(1)")]. -/
theorem file_list_maps_entries_witness :
    (envW.filesStatus = 200 ∧
     ∀ f ∈ envW.files, (envW.contentResp f.contents_url).status = 200 ∧
       base64_to_string (envW.contentResp f.contents_url).content =
         some "print(1)") ∧
    get_pr_file_list envW "1" "o" "r" "t" =
      (Event.httpGet (fileListUrl "1" "o" "r") ::
         envW.files.map (fun f => Event.httpGet f.contents_url),
       Except.ok [("a.py", "@@ ...", "print(1)")]) := by
  have h1 : envW.filesStatus = 200 := rfl
  have h2 : ∀ f ∈ envW.files, (envW.contentResp f.contents_url).status = 200 ∧
      base64_to_string (envW.contentResp f.contents_url).content =
        some "print(1)" := by
    intro f hf
    have hfe : f = { filename := "a.py", patch := "@@ ...", contents_url := "u" } := by
      simpa [envW] using hf
    subst hfe
    exact ⟨rfl, by decide⟩
  refine ⟨⟨h1, h2⟩, ?_⟩
  exact file_list_maps_entries envW "1" "o" "r" "t" (fun _ => "print(1)") h1 h2

theorem fileLoop_error_at (env : Env) (t : String) (bad : FileEntry)
    (post : List FileEntry) (pre : List FileEntry)
    (hpre : ∀ f ∈ pre, (env.contentResp f.contents_url).status = 200 ∧
      ∃ d, base64_to_string (env.contentResp f.contents_url).content = some d)
    (hbad : (env.contentResp bad.contents_url).status ≠ 200) :
    fileLoop env t (pre ++ bad :: post) =
      (pre.map (fun f => Event.httpGet f.contents_url) ++
         [Event.httpGet bad.contents_url],
       Except.error ("Error fetching file contents: " ++
         toString (env.contentResp bad.contents_url).status)) := by
  induction pre with
  | nil =>
    rw [List.nil_append, fileLoop, get_file_content_err env bad.contents_url t hbad]
    rfl
  | cons f pre ih =>
    obtain ⟨h200, d, hdec⟩ := hpre f (by simp)
    have hrest := fun g hg => hpre g (List.mem_cons_of_mem _ hg)
    rw [List.cons_append, fileLoop,
      get_file_content_ok env f.contents_url t d h200 hdec, ih hrest]
    rfl

/-- C3: retrieval aborts on the first non-200 response: a non-200
file-list response raises the error carrying that status with no
per-file fetch at all, and a non-200 content response (after any
prefix of successful entries) raises the error carrying that status,
returns no partial result, and performs no fetch for the entries after
the failing one. -/
theorem retrieval_aborts_on_non200 (env : Env) (p o r t : String) :
    (env.filesStatus ≠ 200 →
      get_pr_file_list env p o r t =
        ([Event.httpGet (fileListUrl p o r)],
         Except.error ("Error fetching pull request: " ++
           toString env.filesStatus))) ∧
    (∀ pre bad post, env.files = pre ++ bad :: post →
      env.filesStatus = 200 →
      (∀ f ∈ pre, (env.contentResp f.contents_url).status = 200 ∧
        ∃ d, base64_to_string (env.contentResp f.contents_url).content = some d) →
      (env.contentResp bad.contents_url).status ≠ 200 →
      get_pr_file_list env p o r t =
        (Event.httpGet (fileListUrl p o r) ::
           (pre.map (fun f => Event.httpGet f.contents_url) ++
            [Event.httpGet bad.contents_url]),
         Except.error ("Error fetching file contents: " ++
           toString (env.contentResp bad.contents_url).status))) := by
  constructor
  · intro hs
    unfold get_pr_file_list
    rw [if_pos hs]
  · intro pre bad post hsplit h200 hpre hbad
    unfold get_pr_file_list
    rw [if_neg (by simp [h200]), hsplit,
      fileLoop_error_at env t bad post pre hpre hbad]

/-- Witness for C3: with a 404 file-list endpoint the retrieval raises
"Error fetching pull request: 404" after the single list fetch, and
with a two-entry list whose first content fetch returns 404 the
retrieval raises "Error fetching file contents: 404" without fetching
the second entry. -/
theorem retrieval_aborts_on_non200_witness :
    (({ envW with filesStatus := 404 } : Env).filesStatus ≠ 200 ∧
     get_pr_file_list { envW with filesStatus := 404 } "1" "o" "r" "t" =
       ([Event.httpGet (fileListUrl "1" "o" "r")],
        Except.error "Error fetching pull request: 404")) ∧
    ((envW2.contentResp "u").status ≠ 200 ∧
     get_pr_file_list envW2 "1" "o" "r" "t" =
       (Event.httpGet (fileListUrl "1" "o" "r") :: ([] ++ [Event.httpGet "u"]),
        Except.error "Error fetching file contents: 404")) := by
  constructor
  · refine ⟨by decide, ?_⟩
    have h := (retrieval_aborts_on_non200 { envW with filesStatus := 404 }
      "1" "o" "r" "t").1 (by decide)
    simpa using h
  · refine ⟨by decide, ?_⟩
    have h := (retrieval_aborts_on_non200 envW2 "1" "o" "r" "t").2 []
      { filename := "a.py", patch := "@@ ...", contents_url := "u" }
      [{ filename := "b.py", patch := "@@ +", contents_url := "v" }]
      rfl rfl (by simp) (by decide)
    simpa using h

theorem fileLoop_ok_length (env : Env) (t : String) :
    ∀ (fs : List FileEntry) (evs : List Event)
      (l : List (String × String × String)),
      fileLoop env t fs = (evs, Except.ok l) → l.length = fs.length := by
  intro fs
  induction fs with
  | nil =>
    intro evs l h
    rw [fileLoop] at h
    simp only [Prod.mk.injEq, Except.ok.injEq] at h
    obtain ⟨-, hl⟩ := h
    subst hl
    rfl
  | cons f fs ih =>
    intro evs l h
    rw [fileLoop] at h
    rcases hgc : get_file_content env f.contents_url t with ⟨evs1, res1⟩
    rw [hgc] at h
    cases res1 with
    | error e => simp at h
    | ok c =>
      rcases hfl : fileLoop env t fs with ⟨evs2, res2⟩
      rw [hfl] at h
      cases res2 with
      | error e => simp at h
      | ok rest =>
        simp only [Prod.mk.injEq, Except.ok.injEq] at h
        obtain ⟨-, hl⟩ := h
        subst hl
        simp only [List.length_cons]
        rw [ih evs2 rest hfl]

/-- C4: max_files is never applied: two runs of main that differ only
in max_files are observationally identical (same trace, same outcome),
and a successful retrieval always returns one tuple per file-list
entry, whatever max_files is. -/
theorem max_files_never_applied (env : Env) (cfg : Config) :
    (∀ a b : Int,
      main env { cfg with max_files := a } = main env { cfg with max_files := b }) ∧
    (∀ (p o r t : String) (l : List (String × String × String)),
      (get_pr_file_list env p o r t).2 = Except.ok l →
      l.length = env.files.length) := by
  constructor
  · intro a b
    cases cfg
    rfl
  · intro p o r t l h
    unfold get_pr_file_list at h
    split_ifs at h with hs
    exact fileLoop_ok_length env t env.files (fileLoop env t env.files).1 l
      (Prod.ext rfl h)

/-- Witness for C4: max_files 0 and 999 give identical runs, and the
one-entry environment returns a one-tuple list. -/
theorem max_files_never_applied_witness :
    main envW { cfgW with max_files := 0 } =
      main envW { cfgW with max_files := 999 } ∧
    ((get_pr_file_list envW "1" "o" "r" "t").2 =
       Except.ok [("a.py", "@@ ...", "print(1)")] ∧
     ([("a.py", "@@ ...", "print(1)")] :
        List (String × String × String)).length = envW.files.length) :=
  ⟨(max_files_never_applied envW cfgW).1 0 999,
   ⟨by rfl,
    (max_files_never_applied envW cfgW).2 "1" "o" "r" "t"
      [("a.py", "@@ ...", "print(1)")] (by rfl)⟩⟩

theorem diffStage_outcome (env : Env) (cfg : Config) (D : Bool) :
    (diffStage env cfg D).2 = Outcome.finished ∨
    ∃ m, (diffStage env cfg D).2 = Outcome.raised m := by
  unfold diffStage
  split_ifs
  · rcases hfl : get_pr_file_list env (toString cfg.pr_number) cfg.repo_ownr
        cfg.repo_name cfg.gh_token with ⟨evs, res⟩
    cases res with
    | error e => exact Or.inr ⟨e, rfl⟩
    | ok l => exact Or.inl rfl
  · exact Or.inl rfl

/-- Counterexample to C5 as stated: with healthy limits (equal
defaults) and a 404 metadata endpoint, the run does not exit 0: it
terminates with the uncaught error "Error fetching pull request: 404". -/
theorem fetch_failure_not_exit_zero :
    (main { envW with prStatus := 404 } cfgW).2 =
      Outcome.raised "Error fetching pull request: 404" ∧
    (main { envW with prStatus := 404 } cfgW).2 ≠ Outcome.finished := by
  constructor
  · decide
  · decide

/-- C5 (amended): the process exits with code 1 exactly when
max_input_tokens > max_tokens; in every other case it never calls
exit: it either finishes normally (exit 0) or terminates abnormally
with an uncaught exception when a fetch fails. -/
theorem exit_code_behavior (env : Env) (cfg : Config) :
    ((main env cfg).2 = Outcome.exited 1 ↔
      cfg.max_input_tokens > cfg.max_tokens) ∧
    (∀ c : Nat, (main env cfg).2 = Outcome.exited c → c = 1) ∧
    (cfg.max_input_tokens ≤ cfg.max_tokens →
      (main env cfg).2 = Outcome.finished ∨
      ∃ msg, (main env cfg).2 = Outcome.raised msg) := by
  by_cases hgt : cfg.max_input_tokens > cfg.max_tokens
  · have hout : (main env cfg).2 = Outcome.exited 1 := by
      simp only [main]
      rw [if_pos hgt]
    refine ⟨⟨fun _ => hgt, fun _ => hout⟩, ?_, ?_⟩
    · intro c hc
      rw [hout] at hc
      exact (Outcome.exited.inj hc.symm)
    · intro hle
      omega
  · have hout : (main env cfg).2 = Outcome.finished ∨
        ∃ msg, (main env cfg).2 = Outcome.raised msg := by
      simp only [main]
      rw [if_neg hgt]
      cases htb : (cfg.review_title || cfg.review_body) with
      | true =>
        rw [if_pos rfl]
        rcases hpd : get_pr_data env (toString cfg.pr_number) cfg.repo_ownr
            cfg.repo_name cfg.gh_token with ⟨evs3, res⟩
        cases res with
        | error e => exact Or.inr ⟨e, rfl⟩
        | ok tb =>
          rcases tb with ⟨tl, bd⟩
          rcases hds : diffStage env cfg cfg.debug with ⟨evs5, out⟩
          have h2 := diffStage_outcome env cfg cfg.debug
          rw [hds] at h2
          exact h2
      | false =>
        rw [if_neg (by simp)]
        rcases hds : diffStage env cfg cfg.debug with ⟨evs5, out⟩
        have h2 := diffStage_outcome env cfg cfg.debug
        rw [hds] at h2
        exact h2
    refine ⟨⟨?_, fun h => absurd h hgt⟩, ?_, fun _ => hout⟩
    · intro h1
      rcases hout with h2 | ⟨m, h2⟩ <;> rw [h1] at h2 <;> simp at h2
    · intro c hc
      rcases hout with h2 | ⟨m, h2⟩ <;> rw [hc] at h2 <;> simp at h2

/-- Witness for C5 (amended): the default configuration with healthy
endpoints satisfies the non-exit disjunction. -/
theorem exit_code_behavior_witness :
    cfgW.max_input_tokens ≤ cfgW.max_tokens ∧
    ((main envW cfgW).2 = Outcome.finished ∨
     ∃ msg, (main envW cfgW).2 = Outcome.raised msg) :=
  ⟨by decide, (exit_code_behavior envW cfgW).2.2 (by decide)⟩

theorem titleBodyEvents_mem_title (D : Bool) (cfg : Config) (tl bd : String)
    (ht : cfg.review_title = true) (hv : cfg.verbose = true) :
    Event.print ("\t" ++ tl) ∈ titleBodyEvents D cfg tl bd := by
  unfold titleBodyEvents printout
  rw [ht, hv]
  simp

theorem titleBodyEvents_mem_body (D : Bool) (cfg : Config) (tl bd : String)
    (hb : cfg.review_body = true) (hv : cfg.verbose = true) :
    Event.print ("\t" ++ bd) ∈ titleBodyEvents D cfg tl bd := by
  unfold titleBodyEvents printout
  rw [hb, hv]
  simp

/-- C6: in a verbose run reviewing title and body whose metadata fetch
succeeds, the exact strings "\t" ++ title and "\t" ++ body are printed:
the title and body pass through unmodified (only the f-string tab is
prepended). -/
theorem verbose_prints_title_body (env : Env) (cfg : Config)
    (hv : cfg.verbose = true) (ht : cfg.review_title = true)
    (hb : cfg.review_body = true) (hok : env.prStatus = 200)
    (hle : cfg.max_input_tokens ≤ cfg.max_tokens) :
    Event.print ("\t" ++ env.prTitle) ∈ (main env cfg).1 ∧
    Event.print ("\t" ++ env.prBody) ∈ (main env cfg).1 := by
  have hgt : ¬cfg.max_input_tokens > cfg.max_tokens := not_lt.mpr hle
  simp only [main]
  rw [if_neg hgt, if_pos (by simp [ht]),
    get_pr_data_ok env (toString cfg.pr_number) cfg.repo_ownr cfg.repo_name
      cfg.gh_token hok]
  rcases hds : diffStage env cfg cfg.debug with ⟨evs5, out⟩
  simp only []
  constructor
  · exact List.mem_append_left _ (List.mem_append_right _
      (titleBodyEvents_mem_title cfg.debug cfg env.prTitle env.prBody ht hv))
  · exact List.mem_append_left _ (List.mem_append_right _
      (titleBodyEvents_mem_body cfg.debug cfg env.prTitle env.prBody hb hv))

/-- Witness for C6: the spec's example, where the metadata endpoint
returns title "Fix bug" and body "Closes #1", prints both "\tFix bug"
and "\tCloses #1". -/
theorem verbose_prints_title_body_witness :
    (cfgW.verbose = true ∧ cfgW.review_title = true ∧ cfgW.review_body = true ∧
     envW.prStatus = 200 ∧ cfgW.max_input_tokens ≤ cfgW.max_tokens) ∧
    (Event.print ("\t" ++ envW.prTitle) ∈ (main envW cfgW).1 ∧
     Event.print ("\t" ++ envW.prBody) ∈ (main envW cfgW).1) :=
  ⟨⟨rfl, rfl, rfl, rfl, by decide⟩,
   verbose_prints_title_body envW cfgW rfl rfl rfl rfl (by decide)⟩

theorem fileListUrl_eq (p o r : String) :
    fileListUrl p o r = prDataUrl p o r ++ "/files" := rfl

theorem prDataUrl_ne_fileListUrl (p o r : String) :
    prDataUrl p o r ≠ fileListUrl p o r := by
  intro h
  have hlen := congrArg String.length h
  rw [fileListUrl_eq, String.length_append] at hlen
  have h6 : ("/files" : String).length = 6 := rfl
  rw [h6] at hlen
  omega

theorem diffStage_no_prUrl (env : Env) (cfg : Config) (D : Bool)
    (hurl : ∀ f ∈ env.files, f.contents_url ≠
      prDataUrl (toString cfg.pr_number) cfg.repo_ownr cfg.repo_name) :
    Event.httpGet (prDataUrl (toString cfg.pr_number) cfg.repo_ownr
      cfg.repo_name) ∉ (diffStage env cfg D).1 := by
  intro hmem
  rcases diffStage_events env cfg D _ hmem with ⟨s, hs⟩ | h | ⟨f, hf, he⟩
  · exact Event.noConfusion hs
  · exact prDataUrl_ne_fileListUrl _ _ _ (Event.httpGet.inj h)
  · exact hurl f hf (Event.httpGet.inj he).symm

/-- C7: when the limit validation passes, the PR-metadata resource is
fetched exactly once iff title review or body review is requested, and
never fetched when both are off (assuming, as for the real API, that no
entry's contents_url coincides with the pull-request URL). -/
theorem metadata_fetch_iff_requested (env : Env) (cfg : Config)
    (hle : cfg.max_input_tokens ≤ cfg.max_tokens)
    (hurl : ∀ f ∈ env.files, f.contents_url ≠
      prDataUrl (toString cfg.pr_number) cfg.repo_ownr cfg.repo_name) :
    (main env cfg).1.count
      (Event.httpGet (prDataUrl (toString cfg.pr_number) cfg.repo_ownr
        cfg.repo_name)) =
      (if cfg.review_title || cfg.review_body then 1 else 0) := by
  have hgt : ¬cfg.max_input_tokens > cfg.max_tokens := not_lt.mpr hle
  have c1 : (print_script_signature cfg.debug (toString cfg.pr_number)
      cfg.repo_ownr cfg.repo_name cfg.verbose).count
      (Event.httpGet (prDataUrl (toString cfg.pr_number) cfg.repo_ownr
        cfg.repo_name)) = 0 :=
    List.count_eq_zero.mpr (print_script_signature_no_httpGet _ _ _ _ _ _)
  have c2 : ((if cfg.debug = true then programCallDump cfg else []) :
      List Event).count
      (Event.httpGet (prDataUrl (toString cfg.pr_number) cfg.repo_ownr
        cfg.repo_name)) = 0 := by
    split
    · exact List.count_eq_zero.mpr (programCallDump_no_httpGet _ _)
    · rfl
  have c3 : ((if cfg.max_input_tokens = cfg.max_tokens then
      [Event.print "!!!WARN: `max_input_tokens = max_tokens` (not recommended)\n"]
      else []) : List Event).count
      (Event.httpGet (prDataUrl (toString cfg.pr_number) cfg.repo_ownr
        cfg.repo_name)) = 0 := by
    split <;> simp
  have c5 : ((diffStage env cfg cfg.debug).1).count
      (Event.httpGet (prDataUrl (toString cfg.pr_number) cfg.repo_ownr
        cfg.repo_name)) = 0 :=
    List.count_eq_zero.mpr (diffStage_no_prUrl env cfg cfg.debug hurl)
  simp only [main]
  rw [if_neg hgt]
  cases htb : (cfg.review_title || cfg.review_body) with
  | true =>
    simp only [reduceIte]
    rcases hpd : get_pr_data env (toString cfg.pr_number) cfg.repo_ownr
        cfg.repo_name cfg.gh_token with ⟨evs3, res⟩
    have h3 : evs3 = [Event.httpGet (prDataUrl (toString cfg.pr_number)
        cfg.repo_ownr cfg.repo_name)] := by
      have h := get_pr_data_fst env (toString cfg.pr_number) cfg.repo_ownr
        cfg.repo_name cfg.gh_token
      rw [hpd] at h
      exact h
    subst h3
    cases res with
    | error e =>
      simp only [List.count_append, c1, c2, c3]
      simp
    | ok tb =>
      rcases tb with ⟨tl, bd⟩
      have c4 : (titleBodyEvents cfg.debug cfg tl bd).count
          (Event.httpGet (prDataUrl (toString cfg.pr_number) cfg.repo_ownr
            cfg.repo_name)) = 0 :=
        List.count_eq_zero.mpr (titleBodyEvents_no_httpGet _ _ _ _ _)
      rcases hds : diffStage env cfg cfg.debug with ⟨evs5, out⟩
      rw [hds] at c5
      simp only [] at c5
      simp only [List.count_append, c1, c2, c3, c4, c5]
      simp
  | false =>
    try simp only [reduceIte]
    rcases hds : diffStage env cfg cfg.debug with ⟨evs5, out⟩
    rw [hds] at c5
    try simp only [] at c5
    simp only [List.count_append, c1, c2, c3, c5]
    simp
    exact ⟨c1, c2, c3, c5⟩

/-- Witness for C7: the default configuration (title/body review on)
issues exactly one metadata GET. -/
theorem metadata_fetch_iff_requested_witness :
    (cfgW.max_input_tokens ≤ cfgW.max_tokens ∧
     ∀ f ∈ envW.files, f.contents_url ≠
       prDataUrl (toString cfgW.pr_number) cfgW.repo_ownr cfgW.repo_name) ∧
    (main envW cfgW).1.count
      (Event.httpGet (prDataUrl (toString cfgW.pr_number) cfgW.repo_ownr
        cfgW.repo_name)) =
      (if cfgW.review_title || cfgW.review_body then 1 else 0) :=
  ⟨⟨by decide, by decide⟩,
   metadata_fetch_iff_requested envW cfgW (by decide) (by decide)⟩

/-- Counterexample to C7 as stated: with title review requested but
max_input_tokens > max_tokens, the run exits during validation and no
metadata GET is issued, so the fetch is not issued "exactly when
requested". -/
theorem metadata_fetch_counterexample :
    ({ cfgW with max_input_tokens := 5000 } : Config).review_title = true ∧
    (main envW { cfgW with max_input_tokens := 5000 }).1.count
      (Event.httpGet (prDataUrl
        (toString ({ cfgW with max_input_tokens := 5000 } : Config).pr_number)
        ({ cfgW with max_input_tokens := 5000 } : Config).repo_ownr
        ({ cfgW with max_input_tokens := 5000 } : Config).repo_name)) = 0 := by
  constructor
  · rfl
  · decide

theorem get_pr_file_list_mem_url (env : Env) (p o r t : String) :
    Event.httpGet (fileListUrl p o r) ∈ (get_pr_file_list env p o r t).1 := by
  unfold get_pr_file_list
  split_ifs
  · simp
  · rcases hfl : fileLoop env t env.files with ⟨evs, res⟩
    simp

theorem diffStage_mem_fileListUrl (env : Env) (cfg : Config) (D : Bool)
    (hd : cfg.review_diffs = true) :
    Event.httpGet (fileListUrl (toString cfg.pr_number) cfg.repo_ownr
      cfg.repo_name) ∈ (diffStage env cfg D).1 := by
  unfold diffStage
  rw [if_pos (by simp [hd])]
  rcases hfl : get_pr_file_list env (toString cfg.pr_number) cfg.repo_ownr
      cfg.repo_name cfg.gh_token with ⟨evs, res⟩
  have hm := get_pr_file_list_mem_url env (toString cfg.pr_number) cfg.repo_ownr
    cfg.repo_name cfg.gh_token
  rw [hfl] at hm
  cases res with
  | error e => exact List.mem_append_right _ hm
  | ok l => exact List.mem_append_right _ hm

/-- C8: when max_input_tokens equals max_tokens, the warning is
printed and the run continues: it never reaches the exit call, and it
proceeds to the fetch stages (metadata GET when title/body review is
on; file-list GET when only diff review is on). -/
theorem equal_limits_warn_and_proceed (env : Env) (cfg : Config)
    (h : cfg.max_input_tokens = cfg.max_tokens) :
    Event.print "!!!WARN: `max_input_tokens = max_tokens` (not recommended)\n" ∈
      (main env cfg).1 ∧
    (∀ c, (main env cfg).2 ≠ Outcome.exited c) ∧
    ((cfg.review_title || cfg.review_body) = true →
      Event.httpGet (prDataUrl (toString cfg.pr_number) cfg.repo_ownr
        cfg.repo_name) ∈ (main env cfg).1) ∧
    ((cfg.review_title || cfg.review_body) = false → cfg.review_diffs = true →
      Event.httpGet (fileListUrl (toString cfg.pr_number) cfg.repo_ownr
        cfg.repo_name) ∈ (main env cfg).1) := by
  have hgt : ¬cfg.max_input_tokens > cfg.max_tokens := by omega
  have hwarn : Event.print
      "!!!WARN: `max_input_tokens = max_tokens` (not recommended)\n" ∈
      ((if cfg.max_input_tokens = cfg.max_tokens then
         [Event.print "!!!WARN: `max_input_tokens = max_tokens` (not recommended)\n"]
       else []) : List Event) := by
    rw [if_pos h]
    simp
  simp only [main]
  rw [if_neg hgt]
  cases htb : (cfg.review_title || cfg.review_body) with
  | true =>
    rcases hpd : get_pr_data env (toString cfg.pr_number) cfg.repo_ownr
        cfg.repo_name cfg.gh_token with ⟨evs3, res⟩
    have h3 : evs3 = [Event.httpGet (prDataUrl (toString cfg.pr_number)
        cfg.repo_ownr cfg.repo_name)] := by
      have hh := get_pr_data_fst env (toString cfg.pr_number) cfg.repo_ownr
        cfg.repo_name cfg.gh_token
      rw [hpd] at hh
      exact hh
    subst h3
    cases res with
    | error e =>
      refine ⟨List.mem_append_left _ (List.mem_append_right _ hwarn),
        fun c hc => Outcome.noConfusion hc,
        fun _ => List.mem_append_right _ (by simp),
        fun hfalse _ => Bool.noConfusion hfalse⟩
    | ok tb =>
      rcases tb with ⟨tl, bd⟩
      rcases hds : diffStage env cfg cfg.debug with ⟨evs5, out⟩
      have hout := diffStage_outcome env cfg cfg.debug
      rw [hds] at hout
      refine ⟨List.mem_append_left _ (List.mem_append_left _
          (List.mem_append_left _ (List.mem_append_right _ hwarn))),
        ?_, fun _ => List.mem_append_left _ (List.mem_append_left _
          (List.mem_append_right _ (by simp))),
        fun hfalse _ => Bool.noConfusion hfalse⟩
      intro c hc
      have hc2 : out = Outcome.exited c := hc
      have hout2 : out = Outcome.finished ∨ ∃ m, out = Outcome.raised m := hout
      rcases hout2 with h2 | ⟨m, h2⟩ <;> rw [hc2] at h2 <;> simp at h2
  | false =>
    rcases hds : diffStage env cfg cfg.debug with ⟨evs5, out⟩
    have hout := diffStage_outcome env cfg cfg.debug
    have hmem := fun hd => diffStage_mem_fileListUrl env cfg cfg.debug hd
    rw [hds] at hout hmem
    refine ⟨List.mem_append_left _ (List.mem_append_right _ hwarn),
      ?_, fun htrue => Bool.noConfusion htrue,
      fun _ hd => List.mem_append_right _ (hmem hd)⟩
    intro c hc
    have hc2 : out = Outcome.exited c := hc
    have hout2 : out = Outcome.finished ∨ ∃ m, out = Outcome.raised m := hout
    rcases hout2 with h2 | ⟨m, h2⟩ <;> rw [hc2] at h2 <;> simp at h2

/-- Witness for C8: the default configuration has equal limits, prints
the warning, does not exit, and issues the metadata GET. -/
theorem equal_limits_warn_and_proceed_witness :
    cfgW.max_input_tokens = cfgW.max_tokens ∧
    (Event.print "!!!WARN: `max_input_tokens = max_tokens` (not recommended)\n" ∈
       (main envW cfgW).1 ∧
     (∀ c, (main envW cfgW).2 ≠ Outcome.exited c) ∧
     ((cfgW.review_title || cfgW.review_body) = true →
       Event.httpGet (prDataUrl (toString cfgW.pr_number) cfgW.repo_ownr
         cfgW.repo_name) ∈ (main envW cfgW).1) ∧
     ((cfgW.review_title || cfgW.review_body) = false →
       cfgW.review_diffs = true →
       Event.httpGet (fileListUrl (toString cfgW.pr_number) cfgW.repo_ownr
         cfgW.repo_name) ∈ (main envW cfgW).1)) :=
  ⟨rfl, equal_limits_warn_and_proceed envW cfgW rfl⟩

theorem titleBodyEvents_mem_banner_title (cfg : Config) (tl bd : String)
    (ht : cfg.review_title = true) :
    Event.print "Reviewing the title:" ∈ titleBodyEvents true cfg tl bd := by
  unfold titleBodyEvents printout
  rw [ht]
  simp

theorem titleBodyEvents_mem_banner_body (cfg : Config) (tl bd : String)
    (hb : cfg.review_body = true) :
    Event.print "Reviewing the body:" ∈ titleBodyEvents true cfg tl bd := by
  unfold titleBodyEvents printout
  rw [hb]
  simp

theorem diffStage_mem_banner (env : Env) (cfg : Config)
    (hd : cfg.review_diffs = true) :
    Event.print "Reviewing the files:" ∈ (diffStage env cfg true).1 := by
  unfold diffStage
  rw [if_pos (by simp [hd])]
  rcases hfl : get_pr_file_list env (toString cfg.pr_number) cfg.repo_ownr
      cfg.repo_name cfg.gh_token with ⟨evs, res⟩
  cases res with
  | error e => exact List.mem_append_left _ (by simp [printout])
  | ok l => exact List.mem_append_left _ (by simp [printout])

/-- C10: main copies --debug into the DEBUG flag read by printout,
which prints iff mode OR DEBUG; so with debug on, printout always
prints, and in a full run the banner and all three review-stage
messages are printed whatever verbose is. -/
theorem debug_forces_printout (env : Env) (cfg : Config)
    (hd : cfg.debug = true) (ht : cfg.review_title = true)
    (hb : cfg.review_body = true) (hdf : cfg.review_diffs = true)
    (hok : env.prStatus = 200) (hle : cfg.max_input_tokens ≤ cfg.max_tokens) :
    (∀ (s : String) (m : Bool), printout true s m = [Event.print s]) ∧
    Event.print (signatureString (toString cfg.pr_number) cfg.repo_ownr
      cfg.repo_name) ∈ (main env cfg).1 ∧
    Event.print "Reviewing the title:" ∈ (main env cfg).1 ∧
    Event.print "Reviewing the body:" ∈ (main env cfg).1 ∧
    Event.print "Reviewing the files:" ∈ (main env cfg).1 := by
  have hgt : ¬cfg.max_input_tokens > cfg.max_tokens := not_lt.mpr hle
  have hprint : ∀ (s : String) (m : Bool), printout true s m = [Event.print s] := by
    intro s m
    unfold printout
    simp
  simp only [main]
  rw [if_neg hgt, if_pos (by simp [ht]),
    get_pr_data_ok env (toString cfg.pr_number) cfg.repo_ownr cfg.repo_name
      cfg.gh_token hok, hd]
  rcases hds : diffStage env cfg true with ⟨evs5, out⟩
  have hsig : Event.print (signatureString (toString cfg.pr_number) cfg.repo_ownr
      cfg.repo_name) ∈ print_script_signature true (toString cfg.pr_number)
      cfg.repo_ownr cfg.repo_name cfg.verbose := by
    unfold print_script_signature
    rw [hprint]
    simp
  have hfiles := diffStage_mem_banner env cfg hdf
  rw [hds] at hfiles
  refine ⟨hprint,
    List.mem_append_left _ (List.mem_append_left _ (List.mem_append_left _
      (List.mem_append_left _ (List.mem_append_left _ hsig)))),
    List.mem_append_left _ (List.mem_append_right _
      (titleBodyEvents_mem_banner_title cfg env.prTitle env.prBody ht)),
    List.mem_append_left _ (List.mem_append_right _
      (titleBodyEvents_mem_banner_body cfg env.prTitle env.prBody hb)),
    List.mem_append_right _ hfiles⟩

/-- Witness for C10: debug on and verbose off still prints the banner
and all three stage messages. -/
theorem debug_forces_printout_witness :
    (({ cfgW with debug := true, verbose := false } : Config).debug = true ∧
     ({ cfgW with debug := true, verbose := false } : Config).review_title = true ∧
     ({ cfgW with debug := true, verbose := false } : Config).review_body = true ∧
     ({ cfgW with debug := true, verbose := false } : Config).review_diffs = true ∧
     envW.prStatus = 200 ∧
     ({ cfgW with debug := true, verbose := false } : Config).max_input_tokens ≤
       ({ cfgW with debug := true, verbose := false } : Config).max_tokens) ∧
    ((∀ (s : String) (m : Bool), printout true s m = [Event.print s]) ∧
     Event.print (signatureString
       (toString ({ cfgW with debug := true, verbose := false } : Config).pr_number)
       ({ cfgW with debug := true, verbose := false } : Config).repo_ownr
       ({ cfgW with debug := true, verbose := false } : Config).repo_name) ∈
       (main envW { cfgW with debug := true, verbose := false }).1 ∧
     Event.print "Reviewing the title:" ∈
       (main envW { cfgW with debug := true, verbose := false }).1 ∧
     Event.print "Reviewing the body:" ∈
       (main envW { cfgW with debug := true, verbose := false }).1 ∧
     Event.print "Reviewing the files:" ∈
       (main envW { cfgW with debug := true, verbose := false }).1) :=
  ⟨⟨rfl, rfl, rfl, rfl, rfl, by decide⟩,
   debug_forces_printout envW { cfgW with debug := true, verbose := false }
     rfl rfl rfl rfl rfl (by decide)⟩

end PrReviewer